import Mathlib

/-
  Verification development for the chat proxy service of saztonov/corpaiportal.
  The definitions below are a shallow embedding of the backend ChatService
  (src/src/entities/chat/model/types.ts): the multimodal content builders,
  request preparation, cost calculation, usage logging, the pre-stream
  persistence phase of handleStreamChatRequest and the streaming relay itself.
  JavaScript numbers appearing in pricing and sampling parameters are modelled
  as rationals; JavaScript string truthiness is modelled via inequality with
  the empty string; a JavaScript value that may be null or undefined is
  modelled as an Option.
-/

/-- Role of a chat message in the inbound payload. The backend request payload
admits system, user and assistant roles. -/
inductive Role where
  | system
  | user
  | assistant
deriving DecidableEq, Repr

/-- Attachment kind, as in the AttachmentType union of the source. -/
inductive AttachmentType where
  | image
  | pdf
  | markdown
deriving DecidableEq, Repr

/-- An attachment: kind, file name, declared MIME type, byte size and an
optional payload (base64 for image and pdf, raw text for markdown). The
payload is optional, as in the source, where data may be absent for
attachments loaded back from the store. -/
structure Attachment where
  type : AttachmentType
  name : String
  mime_type : String
  size : Nat
  data : Option String
deriving DecidableEq, Repr

/-- A message of the inbound chat payload. -/
structure PayloadMessage where
  role : Role
  content : String
  attachments : Option (List Attachment)
deriving DecidableEq, Repr

/-- The inbound chat request payload (ChatRequestPayload of the source). -/
structure ChatRequestPayload where
  model : String
  messages : List PayloadMessage
  conversationId : Option String
  temperature : Option ℚ
  top_p : Option ℚ
deriving DecidableEq, Repr

/-- Interpolating a possibly undefined JavaScript value into a template
literal yields the string undefined; this mirrors that coercion for the
optional attachment payload. -/
def jsString : Option String → String
  | some s => s
  | none => "undefined"

/-- The delimited text block used by all three builders to inline a markdown
attachment, mirroring the template literal of the source. -/
def mdBlock (name data : String) : String :=
  "\n\n--- Файл: " ++ name ++ " ---\n" ++ data ++ "\n---"

/-- One element of an OpenAI style (Schema A) multimodal content array. -/
inductive OpenAIPart where
  | text (text : String)
  | image_url (url : String)
  | file (filename : String) (file_data : String)
deriving DecidableEq, Repr

/-- Schema A message content: either a plain string or a parts array. -/
inductive OpenAIContent where
  | str (s : String)
  | parts (ps : List OpenAIPart)
deriving DecidableEq, Repr

/-- Encoding of a single attachment in buildOpenAIContent. -/
def encodeOpenAIAttachment (att : Attachment) : OpenAIPart :=
  match att.type with
  | .image => .image_url ("data:" ++ att.mime_type ++ ";base64," ++ jsString att.data)
  | .pdf => .file att.name ("data:" ++ att.mime_type ++ ";base64," ++ jsString att.data)
  | .markdown => .text (mdBlock att.name (jsString att.data))

/-- ChatService.buildOpenAIContent: with no attachments the plain content
string is returned; otherwise a parts array seeded with a text part holding
the message content, to which one part per attachment is pushed in order. -/
def buildOpenAIContent (msg : PayloadMessage) : OpenAIContent :=
  match msg.attachments with
  | none => .str msg.content
  | some atts =>
    if atts.isEmpty then .str msg.content
    else .parts (atts.foldl (fun ps att => ps ++ [encodeOpenAIAttachment att])
      [OpenAIPart.text msg.content])

/-- One element of a Claude style (Schema B) content array. -/
inductive ClaudePart where
  | text (t : String)
  | image (media_type : String) (data : String)
  | document (media_type : String) (data : String)
deriving DecidableEq, Repr

/-- Schema B message content: plain string or content blocks. -/
inductive ClaudeContent where
  | str (s : String)
  | parts (ps : List ClaudePart)
deriving DecidableEq, Repr

/-- Encoding of a single attachment in buildClaudeContent. A pdf always
becomes a document block with the fixed media type application/pdf,
independent of the declared MIME type of the attachment. -/
def encodeClaudeAttachment (att : Attachment) : ClaudePart :=
  match att.type with
  | .image => .image att.mime_type (jsString att.data)
  | .pdf => .document "application/pdf" (jsString att.data)
  | .markdown => .text (mdBlock att.name (jsString att.data))

/-- ChatService.buildClaudeContent: with no attachments the plain content
string; otherwise one block per attachment pushed in order, followed by a
final text block holding the message content. -/
def buildClaudeContent (msg : PayloadMessage) : ClaudeContent :=
  match msg.attachments with
  | none => .str msg.content
  | some atts =>
    if atts.isEmpty then .str msg.content
    else .parts ((atts.foldl (fun ps att => ps ++ [encodeClaudeAttachment att]) [])
      ++ [ClaudePart.text msg.content])

/-- One element of a Gemini style (Schema C) parts array. -/
inductive GeminiPart where
  | inline_data (mime_type : String) (data : String)
  | text (t : String)
deriving DecidableEq, Repr

/-- Encoding of a single attachment in buildGeminiParts. -/
def encodeGeminiAttachment (att : Attachment) : GeminiPart :=
  match att.type with
  | .image => .inline_data att.mime_type (jsString att.data)
  | .pdf => .inline_data "application/pdf" (jsString att.data)
  | .markdown => .text (mdBlock att.name (jsString att.data))

/-- ChatService.buildGeminiParts: one part per attachment in order, then the
trailing text part with the message content, appended even when there are no
attachments. -/
def buildGeminiParts (msg : PayloadMessage) : List GeminiPart :=
  (match msg.attachments with
   | some atts =>
     if atts.isEmpty then []
     else atts.foldl (fun ps att => ps ++ [encodeGeminiAttachment att]) []
   | none => []) ++ [GeminiPart.text msg.content]

/-- Pushing elements one by one onto an accumulator list is the same as
appending the mapped list; this is the shape shared by all three builders. -/
theorem foldl_push_eq_map {α β : Type} (f : α → β) :
    ∀ (l : List α) (init : List β),
      l.foldl (fun ps a => ps ++ [f a]) init = init ++ l.map f := by
  intro l
  induction l with
  | nil => intro init; simp
  | cons a t ih => intro init; simp [List.foldl_cons, ih]

/-- A routing table entry: whether the model is routed through the
aggregator and, when so, the aggregator side model id (empty string models a
missing or empty id, which is falsy in the source). -/
structure RouteConfig where
  useOpenRouter : Bool
  openRouterModelId : String
deriving DecidableEq, Repr

/-- A cached pricing entry: price per prompt token and per completion
token. -/
structure Pricing where
  prompt : ℚ
  completion : ℚ
deriving DecidableEq, Repr

/-- A direct provider configuration entry of AI_PROVIDERS_CONFIG: endpoint,
credential (empty string models a missing key) and provider kind tag. -/
structure ProviderConfig where
  url : String
  apiKey : String
  provider : String
deriving DecidableEq, Repr

/-- The in-memory state of the ChatService instance together with the
configuration it reads: the routing table, the pricing cache and the
OpenRouter endpoint and credential. -/
structure ServiceState where
  modelRoutingConfig : String → Option RouteConfig
  pricingCache : String → Option Pricing
  openRouterApiKey : String
  openRouterUrl : String
  providersConfig : String → Option ProviderConfig

/-- The generation config object the source nests the temperature under for
the Gemini provider. Temperature is the only field the source ever places
there, so the object spread in the source reduces to this record. -/
structure GenerationConfig where
  temperature : Option ℚ
deriving DecidableEq, Repr

/-- Message content of an outbound wire message for Schema A or Schema B. -/
inductive WireContent where
  | openai (c : OpenAIContent)
  | claude (c : ClaudeContent)
deriving DecidableEq, Repr

/-- An outbound wire message for the OpenAI compatible request shapes. -/
structure WireMessage where
  role : String
  content : WireContent
deriving DecidableEq, Repr

/-- An outbound wire message for the Gemini request shape. -/
structure GeminiMessage where
  role : String
  parts : List GeminiPart
deriving DecidableEq, Repr

/-- The outbound request body. A field whose value is none is absent from
the JSON object the source builds. -/
structure RequestBody where
  model : Option String
  messages : Option (List WireMessage)
  contents : Option (List GeminiMessage)
  stream : Option Bool
  temperature : Option ℚ
  top_p : Option ℚ
  generationConfig : Option GenerationConfig
deriving DecidableEq, Repr

/-- The empty request body, before any field is assigned. -/
def RequestBody.empty : RequestBody :=
  ⟨none, none, none, none, none, none, none⟩

/-- String rendering of a payload role, as serialized on the wire. -/
def roleString : Role → String
  | .system => "system"
  | .user => "user"
  | .assistant => "assistant"

/-- The sampling parameter merge at the end of prepareAIRequest: a non null
temperature is nested under generationConfig for the gemini provider and set
top level otherwise; a non null top_p is always set top level. -/
def applySampling (provider : String) (temperature top_p : Option ℚ)
    (body : RequestBody) : RequestBody :=
  let body1 :=
    match temperature with
    | none => body
    | some t =>
      if provider = "gemini" then
        { body with generationConfig := some (GenerationConfig.mk (some t)) }
      else
        { body with temperature := some t }
  match top_p with
  | none => body1
  | some p => { body1 with top_p := some p }

/-- Result of preparing an outbound request: either the resolved target with
its request body, or a configuration error (the thrown Error of the
source). -/
inductive PrepareResult where
  | ok (targetUrl : String) (apiKey : String) (body : RequestBody) (provider : String)
  | configError
deriving DecidableEq, Repr

/-- The wire model id of an aggregator routed request: the openRouterModelId
of the routing entry when it is truthy, the requested model otherwise. -/
def openRouterModelIdOf (st : ServiceState) (payload : ChatRequestPayload) : String :=
  match st.modelRoutingConfig payload.model with
  | some rc => if rc.openRouterModelId ≠ "" then rc.openRouterModelId else payload.model
  | none => payload.model

/-- The OpenRouter request body of prepareAIRequest, before the sampling
merge: Claude content formatting when the wire model id starts with the
anthropic namespace, OpenAI content formatting otherwise. -/
def openRouterBody (st : ServiceState) (payload : ChatRequestPayload)
    (stream : Bool) : RequestBody :=
  let orModelId := openRouterModelIdOf st payload
  let isClaudeModel := orModelId.startsWith "anthropic/"
  { RequestBody.empty with
    model := some orModelId,
    messages := some (payload.messages.map fun msg =>
      WireMessage.mk (roleString msg.role)
        (if isClaudeModel then .claude (buildClaudeContent msg)
         else .openai (buildOpenAIContent msg))),
    stream := some stream }

/-- The contents list of a direct Gemini request: only user and assistant
messages pass through, in order, the assistant role remapped to model and
the user role kept. -/
def geminiContents (messages : List PayloadMessage) : List GeminiMessage :=
  (messages.filter fun m => m.role = Role.user ∨ m.role = Role.assistant).map fun m =>
    GeminiMessage.mk (if m.role = Role.assistant then "model" else "user")
      (buildGeminiParts m)

/-- The direct provider request body of prepareAIRequest, before the
sampling merge: the Gemini contents shape for the gemini provider kind, the
OpenAI message shape otherwise. -/
def directBody (pc : ProviderConfig) (payload : ChatRequestPayload)
    (stream : Bool) : RequestBody :=
  if pc.provider = "gemini" then
    { RequestBody.empty with contents := some (geminiContents payload.messages) }
  else
    { RequestBody.empty with
      model := some payload.model,
      messages := some (payload.messages.map fun m =>
        WireMessage.mk (roleString m.role) (.openai (buildOpenAIContent m))),
      stream := some stream }

/-- ChatService.prepareAIRequest. Routing: when the routing entry selects
the aggregator and the aggregator credential is configured, the OpenRouter
body is used; otherwise the direct provider entry is looked up and its
provider kind selects the body shape. A missing provider entry or a missing
credential is the thrown configuration error. Sampling parameters are merged
into the chosen body by applySampling. -/
def prepareAIRequest (st : ServiceState) (payload : ChatRequestPayload)
    (stream : Bool) : PrepareResult :=
  if (match st.modelRoutingConfig payload.model with
      | some rc => rc.useOpenRouter
      | none => false) = true ∧ st.openRouterApiKey ≠ "" then
    .ok st.openRouterUrl st.openRouterApiKey
      (applySampling "openrouter" payload.temperature payload.top_p
        (openRouterBody st payload stream)) "openrouter"
  else
    match st.providersConfig payload.model with
    | none => .configError
    | some pc =>
      if pc.apiKey = "" then .configError
      else
        .ok pc.url pc.apiKey
          (applySampling pc.provider payload.temperature payload.top_p
            (directBody pc payload stream)) pc.provider

/-- Rounding to six decimal places, modelling the toFixed conversion the
source applies to the computed cost. -/
def round6 (q : ℚ) : ℚ :=
  ((Int.floor (q * 1000000 + 1 / 2) : ℤ) : ℚ) / 1000000

/-- ChatService.calculateCost: a cost is produced only when the routing
entry selects the aggregator with a non empty aggregator model id for which
a pricing entry is cached; in every other case the result is null. -/
def calculateCost (st : ServiceState) (model : String)
    (promptTokens completionTokens : ℕ) : Option ℚ :=
  match st.modelRoutingConfig model with
  | some rc =>
    if rc.useOpenRouter = true ∧ rc.openRouterModelId ≠ "" then
      match st.pricingCache rc.openRouterModelId with
      | some pr =>
        some (round6 ((promptTokens : ℚ) * pr.prompt + (completionTokens : ℚ) * pr.completion))
      | none => none
    else none
  | none => none

/-- The wire model id a request for the given model is sent with: the
aggregator model id (falling back to the model itself when unset) when the
request is routed through the aggregator, and the model itself otherwise.
This mirrors the model field selection of prepareAIRequest. -/
def wireModelId (st : ServiceState) (model : String) : String :=
  match st.modelRoutingConfig model with
  | some rc =>
    if rc.useOpenRouter = true ∧ st.openRouterApiKey ≠ "" then
      (if rc.openRouterModelId ≠ "" then rc.openRouterModelId else model)
    else model
  | none => model

/-- Provider reported token usage. -/
structure Usage where
  prompt_tokens : Nat
  completion_tokens : Nat
  total_tokens : Nat
deriving DecidableEq, Repr

/-- The length of the array produced by splitting a string at every space,
as the source does to estimate a word count: one more than the number of
space characters. -/
def spaceSplitLength (content : String) : Nat :=
  (content.data.filter fun c => c = ' ').length + 1

/-- The fallback completion token estimate of logUsage: the ceiling of the
space separated word count divided by 0.75, computed exactly as the ceiling
of four thirds of the count. -/
def fallbackCompletionTokens (content : String) : Nat :=
  (spaceSplitLength content * 4 + 2) / 3

/-- The JavaScript truthiness test the source applies to a computed cost
before calling the cost limiter. -/
def jsTruthyCost : Option ℚ → Bool
  | none => false
  | some c => decide (c ≠ 0)

/-- The usage log record inserted by logUsage. -/
structure UsageLogInsert where
  userId : String
  model : String
  prompt_tokens : Nat
  completion_tokens : Nat
  total_tokens : Nat
  status : String
  cost : Option ℚ
deriving DecidableEq, Repr

/-- Result of logUsage: the reconciled cost, the list of addCost invocations
made on the cost limiter during the call, and the usage log record. -/
structure LogUsageResult where
  cost : Option ℚ
  addCostCalls : List ℚ
  usageLog : UsageLogInsert
deriving Repr

/-- ChatService.logUsage: token counts come from the provider usage when
present, the completion count falling back to the word count estimate when
zero; the cost is computed by calculateCost, addCost is invoked on the cost
limiter when the cost is truthy, and a usage log record with status success
is built. -/
def logUsage (st : ServiceState) (userId model assistantContent : String)
    (usage : Option Usage) : LogUsageResult :=
  let promptTokens := match usage with
    | some u => u.prompt_tokens
    | none => 0
  let ct0 := match usage with
    | some u => u.completion_tokens
    | none => 0
  let completionTokens :=
    if ct0 = 0 then fallbackCompletionTokens assistantContent else ct0
  let totalTokens := promptTokens + completionTokens
  let cost := calculateCost st model promptTokens completionTokens
  let calls := match cost with
    | some c => if c ≠ 0 then [c] else []
    | none => []
  ⟨cost, calls,
    ⟨userId, model, promptTokens, completionTokens, totalTokens, "success", cost⟩⟩

/-- The cost accounting performed by the stream end handler of
handleStreamChatRequest: it calls logUsage (which already invokes addCost on
a truthy cost) and then, on a truthy returned cost, invokes addCost again.
The first component collects every addCost invocation in order; the second
is the reconciled cost. -/
def streamEndAccounting (st : ServiceState) (userId model fullContent : String) :
    List ℚ × Option ℚ :=
  let r := logUsage st userId model fullContent none
  let handlerCalls := match r.cost with
    | some c => if c ≠ 0 then [c] else []
    | none => []
  (r.addCostCalls ++ handlerCalls, r.cost)

/-- ChatService.createConversation, title computation: the user role
messages are filtered, the content of the last of them is taken (the falsy
fallback of the source turns both a missing last user message and an empty
content into New Chat) and truncated to 50 characters. -/
def createConversationTitle (messages : List PayloadMessage) : String :=
  let userMessages := messages.filter fun m => m.role = Role.user
  let lastUserMessage := match userMessages.getLast? with
    | some m => if m.content = "" then "New Chat" else m.content
    | none => "New Chat"
  lastUserMessage.take 50

/-- The attachment metadata projection persisted with a user message: type,
name, MIME type and size. The record deliberately has no payload field. -/
structure AttachmentMeta where
  type : AttachmentType
  name : String
  mime_type : String
  size : Nat
deriving DecidableEq, Repr

/-- The metadata projection of one attachment. -/
def metaOf (a : Attachment) : AttachmentMeta :=
  ⟨a.type, a.name, a.mime_type, a.size⟩

/-- The attachmentsMeta computation of handleStreamChatRequest: map the
attachments to their metadata, null when the message has no attachments
field (an empty attachment list maps to an empty, truthy, array). -/
def attachmentsMeta (atts : Option (List Attachment)) : Option (List AttachmentMeta) :=
  atts.map (List.map metaOf)

/-- The row inserted into the messages table by ChatService.saveMessage. -/
structure MessageInsert where
  conversation_id : String
  user_id : String
  role : String
  content : String
  model : Option String
  attachments : Option (List AttachmentMeta)
deriving DecidableEq, Repr

/-- ChatService.saveMessage, insert row construction: the attachments field
is included only when a non empty attachment list was passed. -/
def saveMessageRecord (conversationId userId role content : String)
    (model : Option String) (attachments : Option (List AttachmentMeta)) :
    MessageInsert :=
  ⟨conversationId, userId, role, content, model,
    match attachments with
    | some l => if 0 < l.length then some l else none
    | none => none⟩

/-- The user message row written by handleStreamChatRequest before
streaming: role user, the message content, no model, and the attachment
metadata only. -/
def persistUserMessage (conversationId userId : String) (msg : PayloadMessage) :
    MessageInsert :=
  saveMessageRecord conversationId userId "user" msg.content none
    (attachmentsMeta msg.attachments)

/-- A mutation of the persistent store performed by the pre-stream phase. -/
inductive StoreAction where
  | conversationCreated (title : String)
  | userMessageSaved (row : MessageInsert)
deriving DecidableEq, Repr

/-- The ways the pre-stream phase can terminate without reaching the
upstream call. -/
inductive FailCode where
  | profileFetchFailed
  | countFetchFailed
  | dailyLimitExceeded
  | emptyMessages
  | hourlyLimitExceeded
deriving DecidableEq, Repr

/-- Outcome of the pre-stream phase of handleStreamChatRequest. -/
inductive PreStreamOutcome where
  | proceed (conversationId : String)
  | failed (code : FailCode)
deriving DecidableEq, Repr

/-- The environment the pre-stream phase consults: the user profile and
usage count reads of checkUserLimits, the configured default daily limit,
the admission answer of the cost limiter, and the conversation id the store
generates on insert. -/
structure PreStreamEnv where
  profileFetchOk : Bool
  dailyRequestLimit : Nat
  countFetchOk : Bool
  todayCount : Option Nat
  defaultDailyLimit : Nat
  canProceedHourly : Bool
  newConversationId : String

/-- ChatService.checkUserLimits: fails when the profile or the usage count
cannot be read, and rejects with the daily limit error when the count of
todays successful requests reaches the request limit (the profile limit,
falling back to the configured default when falsy). -/
def checkUserLimits (env : PreStreamEnv) : Option FailCode :=
  if env.profileFetchOk = false then some .profileFetchFailed
  else if env.countFetchOk = false then some .countFetchFailed
  else
    let requestLimit :=
      if env.dailyRequestLimit = 0 then env.defaultDailyLimit
      else env.dailyRequestLimit
    match env.todayCount with
    | some c => if requestLimit ≤ c then some .dailyLimitExceeded else none
    | none => none

/-- The pre-stream phase of ChatService.handleStreamChatRequest, up to the
point where the upstream request is prepared: check the daily limits, create
a conversation when the payload carries no conversation id, persist the user
message with attachment metadata, and only then ask the cost limiter for
admission, rejecting with the hourly limit error when it declines. The first
component lists the store mutations in the order they are performed. -/
def handleStreamChatRequestPreStream (env : PreStreamEnv)
    (payload : ChatRequestPayload) (userId : String) :
    List StoreAction × PreStreamOutcome :=
  match checkUserLimits env with
  | some code => ([], .failed code)
  | none =>
    let cidAndActions : String × List StoreAction :=
      match payload.conversationId with
      | some c => (c, [])
      | none =>
        (env.newConversationId,
         [StoreAction.conversationCreated (createConversationTitle payload.messages)])
    match payload.messages.getLast? with
    | none => (cidAndActions.2, .failed .emptyMessages)
    | some userMessage =>
      let actions := cidAndActions.2 ++
        [StoreAction.userMessageSaved
          (persistUserMessage cidAndActions.1 userId userMessage)]
      if env.canProceedHourly = false then (actions, .failed .hourlyLimitExceeded)
      else (actions, .proceed cidAndActions.1)

/-- A server sent event written to the caller of the streaming endpoint:
an incremental content delta, the terminal complete event carrying the
conversation and message ids, or a terminal error event carrying the error
message and optional details. -/
inductive OutEvent where
  | content (s : String)
  | complete (conversationId messageId : String)
  | errorEvent (err : String) (details : Option String)
deriving DecidableEq, Repr

/-- Whether an event is terminal (complete or error). -/
def OutEvent.isTerminal : OutEvent → Bool
  | .content _ => false
  | .complete _ _ => true
  | .errorEvent _ _ => true

/-- The caller side response stream: the events that actually reached the
caller, and the writableEnded flag. Node does not deliver data written after
the response has ended (such a write raises a write after end error without
sending anything), so a write on an ended response leaves the visible event
list unchanged. -/
structure ResponseStream where
  events : List OutEvent
  writableEnded : Bool
deriving DecidableEq, Repr

/-- res.write: appends the event when the response is still open, delivers
nothing once it has ended. -/
def ResponseStream.write (r : ResponseStream) (e : OutEvent) : ResponseStream :=
  if r.writableEnded then r else { r with events := r.events ++ [e] }

/-- res.end. -/
def ResponseStream.endResponse (r : ResponseStream) : ResponseStream :=
  { r with writableEnded := true }

/-- One line of an upstream chunk, abstracting the JSON payload while
keeping the control flow of the data handler: a data line whose parsed JSON
carries a delta content string, the DONE sentinel, a data line whose JSON
parse throws, a data line parsing to JSON without a delta content, and a
line without the data prefix. -/
inductive ChunkLine where
  | contentLine (delta : String)
  | doneLine
  | malformed
  | emptyDelta
  | nonData
deriving DecidableEq, Repr

/-- The line loop of the data handler: content deltas are written to the
caller and accumulated; the DONE sentinel, deltas without content and non
data lines are skipped; a JSON parse failure throws, and since the try block
of the source wraps the whole loop, it aborts the processing of the
remaining lines of the chunk. -/
def processLines : List ChunkLine → ResponseStream → String → ResponseStream × String
  | [], r, acc => (r, acc)
  | .contentLine d :: rest, r, acc =>
    processLines rest (r.write (.content d)) (acc ++ d)
  | .malformed :: _, r, acc => (r, acc)
  | .doneLine :: rest, r, acc => processLines rest r acc
  | .emptyDelta :: rest, r, acc => processLines rest r acc
  | .nonData :: rest, r, acc => processLines rest r acc

/-- The state of one streaming relay session: the caller response, the
accumulated assistant content, whether the initial stream timeout timer is
still armed, and how many of the per chunk timers are pending. The data
handler clears the initial timer but assigns the replacement timer to a
fresh local handle, so the per chunk timers are never cleared; their
callbacks check writableEnded before acting, while the initial timer
callback does not. -/
structure RelayState where
  res : ResponseStream
  fullContent : String
  initialTimerArmed : Bool
  chunkTimersArmed : Nat
deriving DecidableEq, Repr

/-- The relay session state when handleStreamChatRequest arms the stream
timeout and issues the upstream request. -/
def relayInit : RelayState :=
  ⟨⟨[], false⟩, "", true, 0⟩

/-- An occurrence in the life of a streaming session: a data chunk, the
upstream end event with the persistence of the assistant message succeeding
(carrying the stored message id) or failing, an upstream stream error, the
initial stream timeout firing, one of the per chunk timeout timers firing,
and the upstream connection attempt failing (the catch block around the
axios call). -/
inductive UpEvent where
  | chunk (lines : List ChunkLine)
  | endOk (messageId : String)
  | endPersistFail
  | streamError
  | initialTimeout
  | chunkTimeout
  | connectFail (details : Option String)
deriving DecidableEq, Repr

/-- Whether an event runs a handler that unconditionally ends the response:
the end handler (both outcomes), the stream error handler and the connect
catch block all leave the response ended. -/
def UpEvent.isTerminator : UpEvent → Bool
  | .endOk _ => true
  | .endPersistFail => true
  | .streamError => true
  | .connectFail _ => true
  | _ => false

/-- One step of the relay, dispatching an occurrence to the corresponding
handler of handleStreamChatRequest. The conversation id is the one resolved
before streaming began. -/
def relayStep (conversationId : String) (s : RelayState) (e : UpEvent) : RelayState :=
  match e with
  | .chunk lines =>
    let s1 := { s with initialTimerArmed := false,
                       chunkTimersArmed := s.chunkTimersArmed + 1 }
    let rc := processLines lines s1.res s1.fullContent
    { s1 with res := rc.1, fullContent := rc.2 }
  | .endOk messageId =>
    { s with initialTimerArmed := false,
             res := (s.res.write (.complete conversationId messageId)).endResponse }
  | .endPersistFail =>
    { s with initialTimerArmed := false,
             res := (s.res.write (.errorEvent "Failed to save response." none)).endResponse }
  | .streamError =>
    let s1 := { s with initialTimerArmed := false }
    if s1.res.writableEnded then s1
    else { s1 with
      res := (s1.res.write (.errorEvent "Streaming error occurred" none)).endResponse }
  | .initialTimeout =>
    if s.initialTimerArmed then
      { s with initialTimerArmed := false,
               res := (s.res.write (.errorEvent "Stream timeout" none)).endResponse }
    else s
  | .chunkTimeout =>
    if 0 < s.chunkTimersArmed then
      let s1 := { s with chunkTimersArmed := s.chunkTimersArmed - 1 }
      if s1.res.writableEnded then s1
      else { s1 with
        res := (s1.res.write (.errorEvent "Stream timeout" none)).endResponse }
    else s
  | .connectFail details =>
    let s1 := { s with initialTimerArmed := false }
    if s1.res.writableEnded then s1
    else { s1 with
      res := (s1.res.write
        (.errorEvent "Failed to connect to AI provider" details)).endResponse }

/-- Running the relay over a sequence of occurrences. -/
def relayRun (conversationId : String) (trace : List UpEvent) : RelayState :=
  trace.foldl (relayStep conversationId) relayInit

/-- Every event of the list is a content event. -/
def allContent (l : List OutEvent) : Prop :=
  ∀ e ∈ l, e.isTerminal = false

/-- The session invariant: while the response is open every delivered event
is a content event; once it has ended the delivered events are a block of
content events followed by exactly one terminal event. -/
def RelayInv (r : ResponseStream) : Prop :=
  (r.writableEnded = false → allContent r.events) ∧
  (r.writableEnded = true →
    ∃ cs t, r.events = cs ++ [t] ∧ allContent cs ∧ t.isTerminal = true)

/-- Splitting allContent over an append. -/
theorem allContent_append {l1 l2 : List OutEvent} :
    allContent (l1 ++ l2) ↔ allContent l1 ∧ allContent l2 := by
  simp only [allContent, List.mem_append]
  constructor
  · intro h
    exact ⟨fun e he => h e (Or.inl he), fun e he => h e (Or.inr he)⟩
  · intro h e he
    rcases he with he | he
    · exact h.1 e he
    · exact h.2 e he

/-- Writing a content event preserves the session invariant. -/
theorem write_content_inv (r : ResponseStream) (d : String) (h : RelayInv r) :
    RelayInv (r.write (.content d)) := by
  unfold RelayInv at *
  unfold ResponseStream.write
  cases hr : r.writableEnded with
  | true =>
    simp only [hr, if_true]
    exact ⟨fun hc => absurd hc (by simp [hr]), fun _ => h.2 hr⟩
  | false =>
    simp only [hr, if_false, Bool.false_eq_true]
    constructor
    · intro _
      rw [allContent_append]
      refine ⟨h.1 hr, ?_⟩
      intro e he
      simp only [List.mem_singleton] at he
      subst he
      rfl
    · intro hcontra
      simp at hcontra
  
/-- Writing a terminal event and then ending the response preserves the
session invariant. -/
theorem write_terminal_end_inv (r : ResponseStream) (t : OutEvent)
    (ht : t.isTerminal = true) (h : RelayInv r) :
    RelayInv ((r.write t).endResponse) := by
  unfold RelayInv at *
  unfold ResponseStream.write ResponseStream.endResponse
  cases hr : r.writableEnded with
  | true =>
    simp only [hr, if_true]
    refine ⟨fun hc => by simp at hc, fun _ => ?_⟩
    exact (h.2 hr)
  | false =>
    simp only [hr, if_false, Bool.false_eq_true]
    refine ⟨fun hc => by simp at hc, fun _ => ?_⟩
    exact ⟨r.events, t, rfl, h.1 hr, ht⟩

/-- Ending the response without a successful terminal write cannot happen in
the relay, but the conditional handlers only end an open response after a
write; this lemma covers the no-op branch where the response is already
ended. -/
theorem processLines_inv (lines : List ChunkLine) :
    ∀ (r : ResponseStream) (acc : String), RelayInv r →
      RelayInv (processLines lines r acc).1 := by
  induction lines with
  | nil => intro r acc h; exact h
  | cons line rest ih =>
    intro r acc h
    cases line with
    | contentLine d =>
      exact ih (r.write (.content d)) (acc ++ d) (write_content_inv r d h)
    | doneLine => exact ih r acc h
    | malformed => exact h
    | emptyDelta => exact ih r acc h
    | nonData => exact ih r acc h

/-- Processing chunk lines never changes the writableEnded flag. -/
theorem processLines_ended (lines : List ChunkLine) :
    ∀ (r : ResponseStream) (acc : String),
      (processLines lines r acc).1.writableEnded = r.writableEnded := by
  induction lines with
  | nil => intro r acc; rfl
  | cons line rest ih =>
    intro r acc
    cases line with
    | contentLine d =>
      rw [show (processLines (ChunkLine.contentLine d :: rest) r acc) =
        processLines rest (r.write (.content d)) (acc ++ d) from rfl]
      rw [ih]
      unfold ResponseStream.write
      cases hr : r.writableEnded <;> simp [hr]
    | doneLine => exact ih r acc
    | malformed => rfl
    | emptyDelta => exact ih r acc
    | nonData => exact ih r acc

/-- Every relay step preserves the session invariant. -/
theorem relayStep_inv (cid : String) (s : RelayState) (e : UpEvent)
    (h : RelayInv s.res) : RelayInv (relayStep cid s e).res := by
  cases e with
  | chunk lines =>
    unfold relayStep
    exact processLines_inv lines s.res s.fullContent h
  | endOk mid => exact write_terminal_end_inv s.res _ rfl h
  | endPersistFail => exact write_terminal_end_inv s.res _ rfl h
  | streamError =>
    unfold relayStep
    cases hr : s.res.writableEnded with
    | true => simpa [hr] using h
    | false =>
      simp only [hr, Bool.false_eq_true, if_false]
      exact write_terminal_end_inv s.res _ rfl h
  | initialTimeout =>
    unfold relayStep
    cases ha : s.initialTimerArmed with
    | true =>
      simp only [ha, if_true]
      exact write_terminal_end_inv s.res _ rfl h
    | false => simpa [ha] using h
  | chunkTimeout =>
    unfold relayStep
    cases ha : decide (0 < s.chunkTimersArmed) with
    | true =>
      simp only [of_decide_eq_true ha, if_true]
      cases hr : s.res.writableEnded with
      | true => simpa [hr] using h
      | false =>
        simp only [hr, Bool.false_eq_true, if_false]
        exact write_terminal_end_inv s.res _ rfl h
    | false => simpa [of_decide_eq_false ha] using h
  | connectFail details =>
    unfold relayStep
    cases hr : s.res.writableEnded with
    | true => simpa [hr] using h
    | false =>
      simp only [hr, Bool.false_eq_true, if_false]
      exact write_terminal_end_inv s.res _ rfl h

/-- Once the response has ended, no relay step reopens it. -/
theorem relayStep_ended_mono (cid : String) (s : RelayState) (e : UpEvent)
    (h : s.res.writableEnded = true) :
    (relayStep cid s e).res.writableEnded = true := by
  cases e with
  | chunk lines =>
    unfold relayStep
    rw [processLines_ended]
    exact h
  | endOk mid => rfl
  | endPersistFail => rfl
  | streamError => simp [relayStep, h]
  | initialTimeout =>
    unfold relayStep
    cases ha : s.initialTimerArmed <;> simp [ha, ResponseStream.write,
      ResponseStream.endResponse, h]
  | chunkTimeout =>
    unfold relayStep
    by_cases ha : 0 < s.chunkTimersArmed <;> simp [ha, h]
  | connectFail details => simp [relayStep, h]

/-- A terminator event (upstream end, stream error or connection failure)
always leaves the response ended. -/
theorem terminator_ends (cid : String) (s : RelayState) (e : UpEvent)
    (h : e.isTerminator = true) :
    (relayStep cid s e).res.writableEnded = true := by
  cases e with
  | chunk lines => simp [UpEvent.isTerminator] at h
  | endOk mid => rfl
  | endPersistFail => rfl
  | streamError =>
    unfold relayStep
    cases hr : s.res.writableEnded with
    | true => simp [hr]
    | false => simp [hr, ResponseStream.endResponse]
  | initialTimeout => simp [UpEvent.isTerminator] at h
  | chunkTimeout => simp [UpEvent.isTerminator] at h
  | connectFail details =>
    unfold relayStep
    cases hr : s.res.writableEnded with
    | true => simp [hr]
    | false => simp [hr, ResponseStream.endResponse]

/-- The initial stream timeout firing while armed leaves the response
ended. -/
theorem initialTimeout_ends (cid : String) (s : RelayState)
    (h : s.initialTimerArmed = true) :
    (relayStep cid s .initialTimeout).res.writableEnded = true := by
  simp [relayStep, h, ResponseStream.endResponse]

/-- A pending per chunk timer firing leaves the response ended. -/
theorem chunkTimeout_ends (cid : String) (s : RelayState)
    (h : 0 < s.chunkTimersArmed) :
    (relayStep cid s .chunkTimeout).res.writableEnded = true := by
  unfold relayStep
  cases hr : s.res.writableEnded with
  | true => simp [h, hr]
  | false => simp [h, hr, ResponseStream.endResponse]

/-- The session invariant holds after running any suffix of occurrences from
a state satisfying it. -/
theorem foldl_relayStep_inv (cid : String) (trace : List UpEvent) :
    ∀ (s : RelayState), RelayInv s.res →
      RelayInv (trace.foldl (relayStep cid) s).res := by
  induction trace with
  | nil => intro s h; exact h
  | cons e rest ih =>
    intro s h
    exact ih (relayStep cid s e) (relayStep_inv cid s e h)

/-- An ended response stays ended over any suffix of occurrences. -/
theorem foldl_relayStep_ended (cid : String) (trace : List UpEvent) :
    ∀ (s : RelayState), s.res.writableEnded = true →
      (trace.foldl (relayStep cid) s).res.writableEnded = true := by
  induction trace with
  | nil => intro s h; exact h
  | cons e rest ih =>
    intro s h
    exact ih (relayStep cid s e) (relayStep_ended_mono cid s e h)

/-- A trace of upstream occurrences that terminates the session: it contains
a terminator event, or the initial timeout fires while its timer is still
armed, or a per chunk timeout fires while a timer is pending. -/
def TraceTerminates (cid : String) (trace : List UpEvent) : Prop :=
  ∃ pre e post, trace = pre ++ e :: post ∧
    (e.isTerminator = true ∨
     (e = UpEvent.initialTimeout ∧ (relayRun cid pre).initialTimerArmed = true) ∨
     (e = UpEvent.chunkTimeout ∧ 0 < (relayRun cid pre).chunkTimersArmed))

/-- Claim C1: for every streamed chat request, whatever sequence of upstream
events occurs — any number of content chunks and malformed lines, followed
by a clean end, a transport error, or an idle timeout — the relay of
handleStreamChatRequest delivers exactly one terminal event (complete or
error) to the caller response, and every content event delivered precedes
that terminal event. Writes attempted after the response has ended are not
delivered (Node write after end), which is what ResponseStream.write
models. -/
theorem handleStreamChatRequest_exactly_one_terminal
    (cid : String) (trace : List UpEvent) (h : TraceTerminates cid trace) :
    ∃ cs t, (relayRun cid trace).res.events = cs ++ [t] ∧
      allContent cs ∧ t.isTerminal = true := by
  obtain ⟨pre, e, post, rfl, hterm⟩ := h
  have hrun : relayRun cid (pre ++ e :: post) =
      post.foldl (relayStep cid) (relayStep cid (relayRun cid pre) e) := by
    unfold relayRun
    rw [List.foldl_append, List.foldl_cons]
  have hinvPre : RelayInv (relayRun cid pre).res := by
    unfold relayRun
    refine foldl_relayStep_inv cid pre relayInit ⟨?_, ?_⟩
    · intro _ x hx
      exact absurd hx (List.not_mem_nil x)
    · intro hc
      exact absurd hc Bool.false_ne_true
  have hended : (relayStep cid (relayRun cid pre) e).res.writableEnded = true := by
    rcases hterm with ht | ⟨rfl, ha⟩ | ⟨rfl, ha⟩
    · exact terminator_ends cid (relayRun cid pre) e ht
    · exact initialTimeout_ends cid (relayRun cid pre) ha
    · exact chunkTimeout_ends cid (relayRun cid pre) ha
  have hinv : RelayInv (relayRun cid (pre ++ e :: post)).res := by
    rw [hrun]
    exact foldl_relayStep_inv cid post _
      (relayStep_inv cid (relayRun cid pre) e hinvPre)
  have hendedRun : (relayRun cid (pre ++ e :: post)).res.writableEnded = true := by
    rw [hrun]
    exact foldl_relayStep_ended cid post _ hended
  exact hinv.2 hendedRun

/-- Witness for claim C1: a concrete session with two content chunks, a
malformed line, a pending chunk timer that fires late, and a clean end with
successful persistence delivers the two content deltas followed by a single
complete event. -/
theorem handleStreamChatRequest_exactly_one_terminal_witness :
    ∃ cs t,
      (relayRun "conv1"
        [UpEvent.chunk [ChunkLine.contentLine "Hel", ChunkLine.doneLine],
         UpEvent.chunk [ChunkLine.contentLine "lo", ChunkLine.malformed,
           ChunkLine.contentLine "lost"],
         UpEvent.endOk "msg9", UpEvent.chunkTimeout]).res.events = cs ++ [t] ∧
      allContent cs ∧ t.isTerminal = true :=
  handleStreamChatRequest_exactly_one_terminal "conv1" _
    ⟨[UpEvent.chunk [ChunkLine.contentLine "Hel", ChunkLine.doneLine],
      UpEvent.chunk [ChunkLine.contentLine "lo", ChunkLine.malformed,
        ChunkLine.contentLine "lost"]],
     UpEvent.endOk "msg9", [UpEvent.chunkTimeout], rfl, Or.inl rfl⟩

/-- A service state with one model routed through the aggregator to a
Claude family wire model priced at one per prompt token and one per
completion token. -/
def stC2 : ServiceState :=
  ⟨fun m => if m = "model-x" then some ⟨true, "anthropic/claude-x"⟩ else none,
   fun id => if id = "anthropic/claude-x" then some ⟨1, 1⟩ else none,
   "or-key", "https://openrouter.ai/api/v1/chat/completions",
   fun _ => none⟩

/-- Claim C2 (code bug): a completed streamed request whose reconciled cost
is non null invokes addCost on the cost limiter twice with that cost, not
once: logUsage itself calls addCost on a truthy cost and the stream end
handler calls addCost again on the returned cost. With assistant content of
three words the fallback counts four completion tokens, the reconciled cost
is 4, and the invocation list is [4, 4]. -/
theorem streamEnd_addCost_called_twice :
    streamEndAccounting stC2 "user1" "model-x" "a b c" = ([4, 4], some 4) := by
  have h1 : fallbackCompletionTokens "a b c" = 4 := by decide
  have h2 : calculateCost stC2 "model-x" 0 4 = some 4 := by
    unfold calculateCost stC2
    norm_num [round6]
    intro h
    exact absurd h (by decide)
  unfold streamEndAccounting logUsage
  simp only [h1]
  norm_num [h2]

/-- Formalisation of the claimed titling rule, following the words of the
spec: the title of a newly created conversation is the first 50 characters
of the content of the first user role message. -/
def firstUserTitle (messages : List PayloadMessage) : Option String :=
  (messages.find? fun m => m.role = Role.user).map fun m => m.content.take 50

/-- The message list of the titling counterexample: two user messages with
distinct contents. -/
def exC3Messages : List PayloadMessage :=
  [⟨Role.user, "alpha", none⟩, ⟨Role.user, "beta", none⟩]

set_option maxRecDepth 8000 in
/-- Counterexample to claim C3: with two user messages the code titles the
new conversation from the last user message, not the first one the claim
names. -/
theorem createConversation_title_not_first_user :
    firstUserTitle exC3Messages = some "alpha" ∧
    createConversationTitle exC3Messages = "beta" ∧
    createConversationTitle exC3Messages ≠ "alpha" := by
  decide

/-- Claim C3 as amended: the title of a newly created conversation is the
first 50 characters of the content of the last user role message (with the
fallback New Chat when there is no user message or its content is empty). -/
theorem createConversation_title_last_user (messages : List PayloadMessage)
    (m : PayloadMessage)
    (h : (messages.filter fun x => x.role = Role.user).getLast? = some m)
    (hm : m.content ≠ "") :
    createConversationTitle messages = m.content.take 50 := by
  simp only [createConversationTitle, h]
  simp [hm]

/-- Witness for the amended claim C3 at a concrete request. -/
theorem createConversation_title_last_user_witness :
    createConversationTitle
      [⟨Role.user, "hello world", none⟩, ⟨Role.assistant, "reply", none⟩] =
      ("hello world").take 50 :=
  createConversation_title_last_user _ ⟨Role.user, "hello world", none⟩
    (by decide) (by decide)

/-- Whether one prepared request satisfies the claimed sampling placement,
following the words of the spec for the Schema C provider: when the provider
is gemini and both sampling parameters are present, both must sit nested
under the generation config object and hence not at the top level of the
body. -/
def specC4CheckAt (st : ServiceState) (p : ChatRequestPayload) : Bool :=
  match prepareAIRequest st p true with
  | .ok _ _ body provider =>
    if provider = "gemini" ∧ p.temperature.isSome ∧ p.top_p.isSome then
      body.top_p.isNone && body.generationConfig.isSome
    else true
  | .configError => true

/-- The claimed sampling placement for the Schema C provider, over all
states and payloads. -/
def specC4SamplingNestedForGemini : Prop :=
  ∀ st p, specC4CheckAt st p = true

/-- A service state with one direct Gemini provider and no aggregator
routing. -/
def stC4 : ServiceState :=
  ⟨fun _ => none, fun _ => none, "", "",
   fun m => if m = "gemini-pro" then some ⟨"gurl", "gkey", "gemini"⟩ else none⟩

/-- A payload for the Gemini model carrying both sampling parameters. -/
def pC4 : ChatRequestPayload :=
  ⟨"gemini-pro", [⟨Role.user, "hi", none⟩], none, some (1 / 2), some (9 / 10)⟩

/-- Counterexample to claim C4: for a request routed to the Gemini provider
with both sampling parameters present, the code places top_p at the top
level of the wire body, not nested under the generation config object. -/
theorem prepareAIRequest_sampling_counterexample :
    ¬ specC4SamplingNestedForGemini :=
  fun h => absurd (h stC4 pC4) (by decide)

/-- Claim C4 as amended: whenever a request with non null temperature and
top_p is prepared, top_p is placed at the top level of the wire body for
every provider kind; the temperature alone is nested under the generation
config object for the gemini provider, and is placed at the top level for
every other provider kind. -/
theorem prepareAIRequest_sampling_placement (st : ServiceState)
    (p : ChatRequestPayload) (stream : Bool) (url key : String)
    (body : RequestBody) (provider : String) (t q : ℚ)
    (h : prepareAIRequest st p stream = .ok url key body provider)
    (ht : p.temperature = some t) (hq : p.top_p = some q) :
    body.top_p = some q ∧
    (provider = "gemini" →
      body.generationConfig = some (GenerationConfig.mk (some t)) ∧
      body.temperature = none) ∧
    (provider ≠ "gemini" →
      body.temperature = some t ∧ body.generationConfig = none) := by
  unfold prepareAIRequest at h
  split at h
  · rw [PrepareResult.ok.injEq] at h
    obtain ⟨h1, h2, h3, h4⟩ := h
    subst h3
    subst h4
    rw [ht, hq]
    refine ⟨?_, ?_, ?_⟩ <;>
      simp [applySampling, openRouterBody, RequestBody.empty]
  · split at h
    · exact PrepareResult.noConfusion h
    · rename_i pc heq
      split at h
      · exact PrepareResult.noConfusion h
      · rw [PrepareResult.ok.injEq] at h
        obtain ⟨h1, h2, h3, h4⟩ := h
        subst h3
        subst h4
        rw [ht, hq]
        by_cases hg : pc.provider = "gemini"
        · refine ⟨?_, ?_, ?_⟩ <;>
            simp [applySampling, directBody, RequestBody.empty, hg]
        · refine ⟨?_, ?_, ?_⟩ <;>
            simp [applySampling, directBody, RequestBody.empty, hg]

/-- The wire body prepared for the Gemini payload carrying both sampling
parameters. -/
def bodyC4 : RequestBody :=
  ⟨none, none, some [⟨"user", [GeminiPart.text "hi"]⟩], none, none,
   some (9 / 10), some (GenerationConfig.mk (some (1 / 2)))⟩

/-- Witness for the amended claim C4 at a concrete Gemini request. -/
theorem prepareAIRequest_sampling_placement_witness :
    prepareAIRequest stC4 pC4 true = .ok "gurl" "gkey" bodyC4 "gemini" ∧
    bodyC4.top_p = some (9 / 10) ∧
    bodyC4.generationConfig = some (GenerationConfig.mk (some (1 / 2))) ∧
    bodyC4.temperature = none := by
  have h := prepareAIRequest_sampling_placement stC4 pC4 true "gurl" "gkey"
    bodyC4 "gemini" (1 / 2) (9 / 10) rfl rfl rfl
  exact ⟨rfl, h.1, (h.2.1 rfl).1, (h.2.1 rfl).2⟩

/-- The wire message a payload message contributes to a direct Gemini
request: system messages contribute nothing, user messages keep the user
role, assistant messages are remapped to the model role. -/
def geminiWireOfMessage (m : PayloadMessage) : Option GeminiMessage :=
  match m.role with
  | Role.system => none
  | Role.user => some ⟨"user", buildGeminiParts m⟩
  | Role.assistant => some ⟨"model", buildGeminiParts m⟩

/-- The filter and map of the Gemini contents construction collapse to one
filterMap over the payload messages. -/
theorem geminiContents_eq_filterMap (messages : List PayloadMessage) :
    geminiContents messages = messages.filterMap geminiWireOfMessage := by
  induction messages with
  | nil => rfl
  | cons m rest ih =>
    simp only [geminiContents] at ih ⊢
    simp only [Bool.decide_or] at ih
    cases hr : m.role <;>
      simp [List.filter_cons, List.filterMap_cons, hr, geminiWireOfMessage,
        Bool.decide_or, ih]

/-- The sampling merge leaves the contents list of the body unchanged. -/
theorem applySampling_contents (provider : String) (t q : Option ℚ)
    (b : RequestBody) : (applySampling provider t q b).contents = b.contents := by
  unfold applySampling
  cases t <;> cases q <;> by_cases hg : provider = "gemini" <;> simp [hg]

/-- The sampling merge leaves the messages list of the body unchanged. -/
theorem applySampling_messages (provider : String) (t q : Option ℚ)
    (b : RequestBody) : (applySampling provider t q b).messages = b.messages := by
  unfold applySampling
  cases t <;> cases q <;> by_cases hg : provider = "gemini" <;> simp [hg]

/-- Claim C5: a direct provider request of the gemini kind carries in its
contents exactly the user and assistant role input messages, in order, the
assistant role rewritten to model and the user role kept as user, system
messages dropped; the OpenAI style messages field is absent. -/
theorem prepareAIRequest_gemini_wire_messages (st : ServiceState)
    (p : ChatRequestPayload) (stream : Bool) (url key : String)
    (body : RequestBody)
    (h : prepareAIRequest st p stream = .ok url key body "gemini") :
    body.contents = some (p.messages.filterMap geminiWireOfMessage) ∧
    body.messages = none := by
  unfold prepareAIRequest at h
  split at h
  · rw [PrepareResult.ok.injEq] at h
    exact absurd h.2.2.2 (by decide)
  · split at h
    · exact PrepareResult.noConfusion h
    · rename_i pc heq
      split at h
      · exact PrepareResult.noConfusion h
      · rw [PrepareResult.ok.injEq] at h
        obtain ⟨h1, h2, h3, h4⟩ := h
        subst h3
        rw [applySampling_contents, applySampling_messages]
        rw [directBody, h4]
        simp [RequestBody.empty, geminiContents_eq_filterMap]

/-- A Gemini payload with one message of each role. -/
def pC5 : ChatRequestPayload :=
  ⟨"gemini-pro",
   [⟨Role.system, "sys", none⟩, ⟨Role.user, "hi", none⟩,
    ⟨Role.assistant, "yo", none⟩],
   none, none, none⟩

/-- The wire body prepared for that payload. -/
def bodyC5 : RequestBody :=
  ⟨none, none,
   some [⟨"user", [GeminiPart.text "hi"]⟩, ⟨"model", [GeminiPart.text "yo"]⟩],
   none, none, none, none⟩

/-- Witness for claim C5 at a concrete Gemini request with a system, a user
and an assistant message: the system message is dropped, the assistant role
becomes model. -/
theorem prepareAIRequest_gemini_wire_messages_witness :
    prepareAIRequest stC4 pC5 true = .ok "gurl" "gkey" bodyC5 "gemini" ∧
    bodyC5.contents =
      some [⟨"user", [GeminiPart.text "hi"]⟩, ⟨"model", [GeminiPart.text "yo"]⟩] ∧
    bodyC5.messages = none := by
  have h := prepareAIRequest_gemini_wire_messages stC4 pC5 true "gurl" "gkey"
    bodyC5 rfl
  exact ⟨rfl, h.1.trans (by decide), h.2⟩

/-- Formalisation of claim C6 following the words of the spec: whenever a
message builds to a Schema A parts array, no markdown attachment appears as
a content part of its own — its delimited block is inlined into the message
own text instead. -/
def specC6MarkdownNeverSeparatePart : Prop :=
  ∀ (m : PayloadMessage) (ps : List OpenAIPart),
    buildOpenAIContent m = .parts ps →
    ∀ att ∈ m.attachments.getD [], att.type = AttachmentType.markdown →
      OpenAIPart.text (mdBlock att.name (jsString att.data)) ∉ ps

/-- A message with one markdown attachment. -/
def mC6 : PayloadMessage :=
  ⟨Role.user, "hi",
   some [⟨AttachmentType.markdown, "notes.md", "text/markdown", 5, some "abc"⟩]⟩

/-- Counterexample to claim C6: the markdown block of a Schema A message is
pushed as its own text part of the content array, not concatenated into the
text part holding the message content. -/
theorem buildOpenAIContent_markdown_counterexample :
    ¬ specC6MarkdownNeverSeparatePart := by
  intro h
  have hnot := h mC6
    [OpenAIPart.text "hi", OpenAIPart.text (mdBlock "notes.md" "abc")]
    (by decide)
    ⟨AttachmentType.markdown, "notes.md", "text/markdown", 5, some "abc"⟩
    (by decide) rfl
  exact hnot (by decide)

/-- Claim C6 as amended: a message with attachments builds to a parts array
whose first part is a text part holding the message own text, followed by
one part per attachment in order, and each markdown attachment contributes a
separate text part holding the delimited block (so the markdown is rendered
as text, but as an additional part, not string-inlined into the message
text). -/
theorem buildOpenAIContent_markdown_separate_text_part (m : PayloadMessage)
    (atts : List Attachment) (h : m.attachments = some atts) (hne : atts ≠ []) :
    buildOpenAIContent m =
      .parts (OpenAIPart.text m.content :: atts.map encodeOpenAIAttachment) ∧
    ∀ att ∈ atts, att.type = AttachmentType.markdown →
      encodeOpenAIAttachment att =
        OpenAIPart.text (mdBlock att.name (jsString att.data)) := by
  constructor
  · cases atts with
    | nil => exact absurd rfl hne
    | cons a t =>
      simp only [buildOpenAIContent, h, List.isEmpty_cons, Bool.false_eq_true,
        if_false]
      rw [foldl_push_eq_map]
      rfl
  · intro att hmem hmd
    simp [encodeOpenAIAttachment, hmd]

/-- Witness for the amended claim C6: the markdown block is the second text
part of the array, after the part holding the message text. -/
theorem buildOpenAIContent_markdown_separate_text_part_witness :
    buildOpenAIContent mC6 =
      .parts [OpenAIPart.text "hi", OpenAIPart.text (mdBlock "notes.md" "abc")] := by
  have h := buildOpenAIContent_markdown_separate_text_part mC6
    [⟨AttachmentType.markdown, "notes.md", "text/markdown", 5, some "abc"⟩]
    rfl (by decide)
  exact h.1.trans (by decide)

/-- Claim C7: a Schema B message with attachments lists one block per
attachment first, in attachment order, the message own text coming last; a
pdf attachment always becomes a document block with media type exactly
application/pdf, whatever MIME type the attachment declares. -/
theorem buildClaudeContent_attachment_order (m : PayloadMessage)
    (atts : List Attachment) (h : m.attachments = some atts) (hne : atts ≠ []) :
    buildClaudeContent m =
      .parts (atts.map encodeClaudeAttachment ++ [ClaudePart.text m.content]) ∧
    ∀ att ∈ atts, att.type = AttachmentType.pdf →
      encodeClaudeAttachment att =
        ClaudePart.document "application/pdf" (jsString att.data) ∧
      ∀ mt : String, encodeClaudeAttachment { att with mime_type := mt } =
        encodeClaudeAttachment att := by
  constructor
  · cases atts with
    | nil => exact absurd rfl hne
    | cons a t =>
      simp only [buildClaudeContent, h, List.isEmpty_cons, Bool.false_eq_true,
        if_false]
      rw [foldl_push_eq_map]
      rfl
  · intro att hmem hpdf
    constructor
    · simp [encodeClaudeAttachment, hpdf]
    · intro mt
      simp [encodeClaudeAttachment, hpdf]

/-- A message with a pdf attachment declaring a non pdf MIME type and an
image attachment. -/
def mC7 : PayloadMessage :=
  ⟨Role.user, "see attached",
   some [⟨AttachmentType.pdf, "doc.pdf", "application/octet-stream", 10,
            some "QkFTRTY0"⟩,
         ⟨AttachmentType.image, "pic.png", "image/png", 4, some "aW1n"⟩]⟩

/-- Witness for claim C7: attachment blocks first in order, text last, and
the pdf block carries application/pdf although the attachment declared
application/octet-stream. -/
theorem buildClaudeContent_attachment_order_witness :
    buildClaudeContent mC7 =
      .parts [ClaudePart.document "application/pdf" "QkFTRTY0",
              ClaudePart.image "image/png" "aW1n",
              ClaudePart.text "see attached"] ∧
    encodeClaudeAttachment
        ⟨AttachmentType.pdf, "doc.pdf", "application/octet-stream", 10,
          some "QkFTRTY0"⟩ =
      ClaudePart.document "application/pdf" "QkFTRTY0" := by
  have h := buildClaudeContent_attachment_order mC7
    [⟨AttachmentType.pdf, "doc.pdf", "application/octet-stream", 10,
        some "QkFTRTY0"⟩,
     ⟨AttachmentType.image, "pic.png", "image/png", 4, some "aW1n"⟩]
    rfl (by decide)
  exact ⟨h.1.trans (by decide),
    (h.2 _ (by decide) rfl).1⟩

/-- Formalisation of claim C8 following the words of the spec: the cost is
the token weighted price of the pricing entry of the resolved wire model id,
rounded to six decimal places, and null exactly when no pricing entry exists
for that wire model id. -/
def specC8CostFromWirePricing : Prop :=
  ∀ (st : ServiceState) (model : String) (pt ct : Nat),
    calculateCost st model pt ct =
      (st.pricingCache (wireModelId st model)).map fun pr =>
        round6 ((pt : ℚ) * pr.prompt + (ct : ℚ) * pr.completion)

/-- A service state with no routing entries but a cached pricing entry for a
directly routed model id. -/
def stC8 : ServiceState :=
  ⟨fun _ => none,
   fun id => if id = "direct-model" then some ⟨1, 1⟩ else none,
   "", "", fun _ => none⟩

/-- Counterexample to claim C8: for a model with no aggregator routing the
wire model id is the model itself and a pricing entry for it exists, yet
calculateCost returns null instead of the claimed rounded token weighted
price. -/
theorem calculateCost_wire_pricing_counterexample :
    ¬ specC8CostFromWirePricing := by
  intro h
  have h2 := h stC8 "direct-model" 1 1
  simp [calculateCost, wireModelId, stC8] at h2

/-- Claim C8 as amended: the reconciled cost is non null exactly when the
routing entry of the model selects the aggregator with a non empty
aggregator model id for which a pricing entry is cached, and it then equals
promptTokens times promptPrice plus completionTokens times completionPrice,
rounded to six decimal places; in every other case — including a direct
provider route whose model id has a cached pricing entry — the cost is
null. -/
theorem calculateCost_characterization (st : ServiceState) (model : String)
    (pt ct : Nat) (c : ℚ) :
    calculateCost st model pt ct = some c ↔
      ∃ rc pr, st.modelRoutingConfig model = some rc ∧
        rc.useOpenRouter = true ∧ rc.openRouterModelId ≠ "" ∧
        st.pricingCache rc.openRouterModelId = some pr ∧
        c = round6 ((pt : ℚ) * pr.prompt + (ct : ℚ) * pr.completion) := by
  constructor
  · intro hc
    unfold calculateCost at hc
    split at hc
    · rename_i rc hrc
      split at hc
      · rename_i hb
        split at hc
        · rename_i pr hpr
          injection hc with hc
          exact ⟨rc, pr, hrc, hb.1, hb.2, hpr, hc.symm⟩
        · exact Option.noConfusion hc
      · exact Option.noConfusion hc
    · exact Option.noConfusion hc
  · rintro ⟨rc, pr, hrc, hu, hn, hpr, hcval⟩
    unfold calculateCost
    simp only [hrc]
    rw [if_pos ⟨hu, hn⟩]
    simp only [hpr]
    rw [hcval]

/-- Two attachments agree on every metadata field (kind, name, declared
MIME type, size); their payloads may differ. -/
def SameMetadata (a b : Attachment) : Prop :=
  a.type = b.type ∧ a.name = b.name ∧ a.mime_type = b.mime_type ∧ a.size = b.size

/-- Two optional attachment lists agree on shape and metadata, payloads
apart. -/
def SameAttachmentShape : Option (List Attachment) → Option (List Attachment) → Prop
  | none, none => True
  | some l1, some l2 => List.Forall₂ SameMetadata l1 l2
  | _, _ => False

/-- Attachments agreeing on metadata project to the same persisted
metadata record. -/
theorem metaOf_congr {a b : Attachment} (h : SameMetadata a b) :
    metaOf a = metaOf b := by
  obtain ⟨h1, h2, h3, h4⟩ := h
  simp [metaOf, h1, h2, h3, h4]

/-- Optional attachment lists agreeing on shape and metadata produce the
same persisted metadata list. -/
theorem attachmentsMeta_congr :
    ∀ {o1 o2 : Option (List Attachment)}, SameAttachmentShape o1 o2 →
      attachmentsMeta o1 = attachmentsMeta o2 := by
  intro o1 o2 h
  cases o1 with
  | none =>
    cases o2 with
    | none => rfl
    | some l2 => exact absurd h (by simp [SameAttachmentShape])
  | some l1 =>
    cases o2 with
    | none => exact absurd h (by simp [SameAttachmentShape])
    | some l2 =>
      have h2 : List.Forall₂ SameMetadata l1 l2 := h
      have hmap : l1.map metaOf = l2.map metaOf := by
        induction h2 with
        | nil => rfl
        | cons ha ht ih => simp [metaOf_congr ha, ih ht]
      simp [attachmentsMeta, hmap]

/-- Claim C9: the persisted user message row carries only attachment
metadata and never payload bytes — the row type has no payload field, and
the row written is identical for any two requests that agree on the message
content and the attachment metadata while their attachment payloads
differ arbitrarily. -/
theorem persistUserMessage_payload_independent (conversationId userId : String)
    (m1 m2 : PayloadMessage) (hc : m1.content = m2.content)
    (hatt : SameAttachmentShape m1.attachments m2.attachments) :
    persistUserMessage conversationId userId m1 =
      persistUserMessage conversationId userId m2 := by
  unfold persistUserMessage
  rw [hc, attachmentsMeta_congr hatt]

/-- Witness for claim C9: two messages differing only in the attachment
payload bytes persist to the same row. -/
theorem persistUserMessage_payload_independent_witness :
    persistUserMessage "conv1" "user1"
      ⟨Role.user, "hi",
        some [⟨AttachmentType.image, "a.png", "image/png", 3, some "AAAA"⟩]⟩ =
    persistUserMessage "conv1" "user1"
      ⟨Role.user, "hi",
        some [⟨AttachmentType.image, "a.png", "image/png", 3, some "BBBB"⟩]⟩ :=
  persistUserMessage_payload_independent "conv1" "user1" _ _ rfl
    (List.Forall₂.cons ⟨rfl, rfl, rfl, rfl⟩ List.Forall₂.nil)

/-- checkUserLimits never reports the hourly cost rejection: its failure
codes are the profile fetch, the count fetch and the daily limit. -/
theorem checkUserLimits_no_hourly (env : PreStreamEnv) :
    checkUserLimits env ≠ some FailCode.hourlyLimitExceeded := by
  intro h
  unfold checkUserLimits at h
  repeat' split at h
  all_goals simp at h

/-- Claim C10: when a request without a conversation id is rejected by the
hourly cost admission check, the rejection happens only after the
conversation has been created and the user message row has been persisted —
the store mutations of the rejected request are exactly the conversation
creation followed by the user message insert, so admission rejection is not
atomic with respect to persistent state. -/
theorem preStream_hourly_rejection_mutates_store (env : PreStreamEnv)
    (payload : ChatRequestPayload) (userId : String)
    (hcid : payload.conversationId = none)
    (hout : (handleStreamChatRequestPreStream env payload userId).2 =
      PreStreamOutcome.failed FailCode.hourlyLimitExceeded) :
    ∃ m : PayloadMessage, payload.messages.getLast? = some m ∧
      (handleStreamChatRequestPreStream env payload userId).1 =
        [StoreAction.conversationCreated (createConversationTitle payload.messages),
         StoreAction.userMessageSaved
           (persistUserMessage env.newConversationId userId m)] := by
  unfold handleStreamChatRequestPreStream at hout ⊢
  cases hchk : checkUserLimits env with
  | some code =>
    simp only [hchk] at hout
    injection hout with hout
    subst hout
    exact absurd hchk (checkUserLimits_no_hourly env)
  | none =>
    simp only [hchk, hcid] at hout ⊢
    cases hlast : payload.messages.getLast? with
    | none => simp [hlast] at hout
    | some m =>
      simp only [hlast] at hout ⊢
      by_cases hcp : env.canProceedHourly = false
      · refine ⟨m, rfl, ?_⟩
        simp [hcp]
      · simp [hcp] at hout

/-- An environment whose daily limit admits the request but whose cost
limiter declines it. -/
def envC10 : PreStreamEnv :=
  ⟨true, 5, true, some 0, 100, false, "new-conv"⟩

/-- A payload without a conversation id. -/
def pC10 : ChatRequestPayload :=
  ⟨"model-x", [⟨Role.user, "hello", none⟩], none, none, none⟩

/-- Witness for claim C10 at a concrete rejected request: the conversation
creation and the user message insert both happen although the outcome is the
hourly limit rejection. -/
theorem preStream_hourly_rejection_mutates_store_witness :
    ∃ m : PayloadMessage, pC10.messages.getLast? = some m ∧
      (handleStreamChatRequestPreStream envC10 pC10 "user1").1 =
        [StoreAction.conversationCreated (createConversationTitle pC10.messages),
         StoreAction.userMessageSaved
           (persistUserMessage envC10.newConversationId "user1" m)] :=
  preStream_hourly_rejection_mutates_store envC10 pC10 "user1" rfl rfl
